import Mathlib

/-!
Verification of the `incontainer` container-detection library.

The Go sources (incontainer.go and cmd/incontainer/main.go) are shallowly
embedded below.  Ambient host state (filesystem stat results, hostname,
the /proc/1/cgroup contents, environment variables) is made an explicit
`HostState` parameter; every probe is the direct translation of the
corresponding Go function over that state.  Go `float64` confidence
weights are modelled as rationals (all weights are decimal literals whose
ordering and equality the doubles preserve).  Go strings are Lean
`String`s; Go `len` on a string is its UTF-8 byte size, `range` over a
string iterates runes, i.e. `String.data`.
-/

namespace InContainer

/-- `type ContainerType string` with its constants.  Mirrors the Go
string-typed enumeration. -/
abbrev ContainerType := String

def Docker : ContainerType := "docker"

def Kubernetes : ContainerType := "kubernetes"

def Podman : ContainerType := "podman"

def LXC : ContainerType := "lxc"

def Colima : ContainerType := "colima"

def OrbStack : ContainerType := "orbstack"

def RancherDesktop : ContainerType := "rancher-desktop"

def Unknown : ContainerType := "unknown"

/-- The detection result struct.  Go's field `Type` is a Lean keyword, so
it is rendered `Type'`. -/
structure Result where
  InContainer : Bool
  Type' : ContainerType
  Confidence : ℚ
deriving DecidableEq

/-- The `(bool, ContainerType, float64)` triple every probe returns. -/
structure Finding where
  found : Bool
  kind : ContainerType
  confidence : ℚ
deriving DecidableEq

/-- The `false, Unknown, 0.0` triple returned when nothing matches. -/
def notFound : Finding := ⟨false, Unknown, 0⟩

/-- Outcome of `os.Stat` when it fails (`err != nil`); the probes only
ever test `err == nil`, but keeping the error kind lets us state that
absence and unreadability are indistinguishable. -/
inductive StatError
  | notExist
  | permission
  | other
deriving DecidableEq

/-- The ambient host state read by the probes:
* `stat p = none` models `os.Stat p` succeeding (`err == nil`),
  `stat p = some e` models it failing with error `e`;
* `hostname = none` models `os.Hostname` returning an error;
* `cgroup = .ok lines` models `/proc/1/cgroup` opening with the given
  lines, `.error e` models `os.Open` failing;
* `getenv` models `os.Getenv`, which returns `""` for unset variables. -/
structure HostState where
  stat : String → Option StatError
  hostname : Option String
  cgroup : Except StatError (List String)
  getenv : String → String

/-- Does `sub` occur at the head of `s`?  (Helper for `containsSub`.) -/
def leadsWith : List Char → List Char → Bool
  | [], _ => true
  | _ :: _, [] => false
  | c :: cs, d :: ds => c == d && leadsWith cs ds

/-- Substring search over character lists (helper for `goContains`). -/
def containsSub (s sub : List Char) : Bool :=
  match s with
  | [] => sub.isEmpty
  | _ :: t => leadsWith sub s || containsSub t sub

/-- Go `strings.Contains s sub`.  The needles used by this library are
pure ASCII, for which UTF-8 byte-level and rune-level containment
coincide. -/
def goContains (s sub : String) : Bool := containsSub s.data sub.data

/-- Go `len` on a string: its UTF-8 byte length. -/
def goLen (s : String) : Nat := s.utf8ByteSize

/-- `isHexString`: the Go loop `for _, c := range s` with an early
`return false`, i.e. every rune is in `0-9a-fA-F`. -/
def isHexString (s : String) : Bool :=
  s.data.all fun c =>
    (decide ('0' ≤ c) && decide (c ≤ '9')) ||
    (decide ('a' ≤ c) && decide (c ≤ 'f')) ||
    (decide ('A' ≤ c) && decide (c ≤ 'F'))

/-- `CheckDockerEnv`: the `/.dockerenv` marker file, else a 12-byte
all-hex hostname. -/
def CheckDockerEnv (s : HostState) : Finding :=
  if (s.stat "/.dockerenv").isNone then ⟨true, Docker, mkRat 9 10⟩
  else if (match s.hostname with
           | some h => goLen h == 12 && isHexString h
           | none => false) then ⟨true, Docker, mkRat 7 10⟩
  else notFound

/-- The scanner loop of `CheckCgroup`: first line containing a
recognized substring decides, testing the substrings in the source's
order. -/
def cgroupScan : List String → Finding
  | [] => notFound
  | line :: rest =>
    if goContains line "docker" then ⟨true, Docker, mkRat 8 10⟩
    else if goContains line "kubepods" then ⟨true, Kubernetes, mkRat 8 10⟩
    else if goContains line "lxc" then ⟨true, LXC, mkRat 8 10⟩
    else if goContains line "podman" then ⟨true, Podman, mkRat 8 10⟩
    else if goContains line "colima" then ⟨true, Colima, mkRat 8 10⟩
    else cgroupScan rest

/-- `CheckCgroup`: open `/proc/1/cgroup`; on failure not-found, else
scan the lines. -/
def CheckCgroup (s : HostState) : Finding :=
  match s.cgroup with
  | .error _ => notFound
  | .ok lines => cgroupScan lines

/-- `CheckKubernetes`: service-account directory, else the
`KUBERNETES_SERVICE_HOST` environment variable. -/
def CheckKubernetes (s : HostState) : Finding :=
  if (s.stat "/var/run/secrets/kubernetes.io/serviceaccount").isNone then
    ⟨true, Kubernetes, mkRat 9 10⟩
  else if s.getenv "KUBERNETES_SERVICE_HOST" ≠ "" then ⟨true, Kubernetes, mkRat 8 10⟩
  else notFound

/-- `CheckPodman`: the environment variable `container` equals
`podman`. -/
def CheckPodman (s : HostState) : Finding :=
  if s.getenv "container" = "podman" then ⟨true, Podman, mkRat 9 10⟩
  else notFound

/-- `CheckColima`: `COLIMA` environment variable, else the Colima
socket, else a hostname containing `colima`. -/
def CheckColima (s : HostState) : Finding :=
  if s.getenv "COLIMA" ≠ "" then ⟨true, Colima, mkRat 9 10⟩
  else if (s.stat "/var/run/colima.sock").isNone then ⟨true, Colima, mkRat 8 10⟩
  else if (match s.hostname with
           | some h => goContains h "colima"
           | none => false) then ⟨true, Colima, mkRat 7 10⟩
  else notFound

/-- `CheckOrbStack`: `ORBSTACK` environment variable, else the OrbStack
socket, else a hostname containing `orbstack`, else the `/opt/orbstack`
mount point. -/
def CheckOrbStack (s : HostState) : Finding :=
  if s.getenv "ORBSTACK" ≠ "" then ⟨true, OrbStack, mkRat 9 10⟩
  else if (s.stat "/var/run/orbstack.sock").isNone then ⟨true, OrbStack, mkRat 8 10⟩
  else if (match s.hostname with
           | some h => goContains h "orbstack"
           | none => false) then ⟨true, OrbStack, mkRat 7 10⟩
  else if (s.stat "/opt/orbstack").isNone then ⟨true, OrbStack, mkRat 6 10⟩
  else notFound

/-- `CheckRancherDesktop`: `RANCHER_DESKTOP` environment variable, else
the Rancher Desktop socket, else a hostname containing `rancher` or
`rd-`, else the bundled k3s binary. -/
def CheckRancherDesktop (s : HostState) : Finding :=
  if s.getenv "RANCHER_DESKTOP" ≠ "" then ⟨true, RancherDesktop, mkRat 9 10⟩
  else if (s.stat "/var/run/rancher-desktop.sock").isNone then
    ⟨true, RancherDesktop, mkRat 8 10⟩
  else if (match s.hostname with
           | some h => goContains h "rancher" || goContains h "rd-"
           | none => false) then ⟨true, RancherDesktop, mkRat 7 10⟩
  else if (s.stat "/usr/local/bin/k3s").isNone then ⟨true, RancherDesktop, mkRat 6 10⟩
  else notFound

/-- The `indicators` slice of `Detect`, in registration order. -/
def probeFuns : List (HostState → Finding) :=
  [CheckDockerEnv, CheckCgroup, CheckKubernetes, CheckPodman,
   CheckColima, CheckOrbStack, CheckRancherDesktop]

/-- One iteration of `Detect`'s loop over the accumulator
`(InContainer, maxConfidence, detectedType)`. -/
def detectStep (acc : Bool × ℚ × ContainerType) (r : Finding) :
    Bool × ℚ × ContainerType :=
  if r.found then
    (true, if acc.2.1 < r.confidence then (r.confidence, r.kind) else acc.2)
  else acc

/-- `Detect`: run every probe, track the maximum confidence among
positive findings (strict improvement only, so the earlier probe keeps
the type on ties) and whether any probe fired. -/
def Detect (s : HostState) : Result :=
  let acc := probeFuns.foldl (fun acc check => detectStep acc (check s))
    (false, 0, Unknown)
  ⟨acc.1, acc.2.2, acc.2.1⟩

/-- `IsInContainer` convenience projection. -/
def IsInContainer (s : HostState) : Bool := (Detect s).InContainer

/-- `GetContainerType` convenience projection. -/
def GetContainerType (s : HostState) : ContainerType := (Detect s).Type'

/-- The findings of all probes, in registration order. -/
def findings (s : HostState) : List Finding := probeFuns.map fun f => f s

/-- Well-formedness of a single probe finding: a positive finding names
one of the seven concrete technologies with one of the four weights; a
negative finding is exactly `Unknown`/`0`. -/
abbrev WFFinding (r : Finding) : Prop :=
  (r.found = true →
    (r.kind = Docker ∨ r.kind = Kubernetes ∨ r.kind = Podman ∨ r.kind = LXC ∨
     r.kind = Colima ∨ r.kind = OrbStack ∨ r.kind = RancherDesktop) ∧
    (r.confidence = mkRat 6 10 ∨ r.confidence = mkRat 7 10 ∨
     r.confidence = mkRat 8 10 ∨ r.confidence = mkRat 9 10)) ∧
  (r.found = false → r.kind = Unknown ∧ r.confidence = 0)

/-- The cgroup substrings recognized by `CheckCgroup`, in the order the
source tests them, with the technology each one maps to. -/
def recognizedSubs : List (String × ContainerType) :=
  [("docker", Docker), ("kubepods", Kubernetes), ("lxc", LXC),
   ("podman", Podman), ("colima", Colima)]

/-- Does a cgroup line contain any recognized substring? -/
def lineMatches (l : String) : Bool :=
  recognizedSubs.any fun p => goContains l p.1

/-- The verdict for a matching cgroup line: the first recognized
substring (in the source's order) occurring in it, at weight 0.8. -/
def lineVerdict (l : String) : Finding :=
  match recognizedSubs.find? (fun p => goContains l p.1) with
  | some p => ⟨true, p.2, mkRat 8 10⟩
  | none => notFound

/-- Specification model of `CheckCgroup`, following the spec's words:
the first line containing a recognized substring decides via
`lineVerdict`; an unopenable file or no matching line is not-found. -/
def cgroupModel : Except StatError (List String) → Finding
  | .error _ => notFound
  | .ok lines =>
    match lines.find? lineMatches with
    | some l => lineVerdict l
    | none => notFound

/-- Specification model of `CheckDockerEnv`, following the spec's words:
marker file, else a hostname of exactly 12 characters that are all
hexadecimal digits.  (The source compares the byte length; the two
coincide on all-hex strings.) -/
def dockerEnvModel (s : HostState) : Finding :=
  if (s.stat "/.dockerenv").isNone then ⟨true, Docker, mkRat 9 10⟩
  else
    match s.hostname with
    | some h =>
      if h.length = 12 ∧ isHexString h = true then ⟨true, Docker, mkRat 7 10⟩
      else notFound
    | none => notFound

/-- Specification model of `Detect`, following the spec's words:
`InContainer` iff some probe fired; confidence is the maximum over the
positive findings (`0` when none); the type comes from the earliest
registered probe achieving that maximum. -/
def detectSpec (s : HostState) : Result :=
  let fs := findings s
  let maxC := ((fs.filter fun r => r.found).map fun r => r.confidence).foldl max 0
  match fs.find? (fun r => r.found && decide (r.confidence = maxC)) with
  | some r => ⟨true, r.kind, maxC⟩
  | none => ⟨false, Unknown, 0⟩

/-- The `(maxConfidence, detectedType)` part of `Detect`'s loop body,
fired only for positive findings. -/
def step2 (mt : ℚ × ContainerType) (r : Finding) : ℚ × ContainerType :=
  if mt.1 < r.confidence then (r.confidence, r.kind) else mt

/-- Project the kind out of an optional finding, with a fallback. -/
def kindOf (o : Option Finding) (t : ContainerType) : ContainerType :=
  match o with
  | some r => r.kind
  | none => t

/-- Resources-agree relation for the cgroup file: both reads fail (with
any errors), or both succeed with the same lines. -/
def cgroupSame : Except StatError (List String) → Except StatError (List String) → Prop
  | .error _, .error _ => True
  | .ok l₁, .ok l₂ => l₁ = l₂
  | _, _ => False

/-- A host state with no evidence at all: every `stat` fails with `e`,
the hostname is unreadable, the cgroup file does not open, no
environment variable is set. -/
def barren (e : StatError) : HostState :=
  ⟨fun _ => some e, none, .error e, fun _ => ""⟩

/-- Host state where only `container=podman` is set. -/
def sPodmanOnly : HostState :=
  ⟨fun _ => some .notExist, none, .error .notExist,
   fun n => if n = "container" then "podman" else ""⟩

/-- Host state where only the `COLIMA` environment variable is set. -/
def sColimaEnv : HostState :=
  ⟨fun _ => some .notExist, none, .error .notExist,
   fun n => if n = "COLIMA" then "1" else ""⟩

/-- Host state whose only evidence is a single cgroup line mentioning
both `kubepods` and `docker`. -/
def sCgroupBoth : HostState :=
  ⟨fun _ => some .notExist, none,
   .ok ["12:cpuset:/kubepods/pod1/docker-abc123"], fun _ => ""⟩

/-- The per-probe `CheckResult` of the CLI (cmd/incontainer/main.go). -/
structure CheckResult where
  found : Bool
  type : ContainerType
  confidence : ℚ
deriving DecidableEq

/-- The CLI's `DetailedResult`.  Go builds `Details` as a map with
unspecified iteration order; it is modelled as the association list of
the map's entries in the literal's order (the claims below do not
depend on entry order). -/
structure DetailedResult where
  inContainer : Bool
  type : ContainerType
  confidence : ℚ
  details : List (String × CheckResult)
deriving DecidableEq

/-- The `checks` map literal of `getDetailedResult` in the CLI. -/
def cliChecks : List (String × (HostState → Finding)) :=
  [("docker_env", CheckDockerEnv), ("cgroup", CheckCgroup),
   ("kubernetes", CheckKubernetes), ("podman", CheckPodman)]

/-- Repack a probe finding as the CLI's `CheckResult`. -/
def mkCheckResult (f : Finding) : CheckResult := ⟨f.found, f.kind, f.confidence⟩

/-- `getDetailedResult` of the CLI: the aggregate result plus one detail
entry per entry of `cliChecks`. -/
def getDetailedResult (s : HostState) (result : Result) : DetailedResult :=
  ⟨result.InContainer, result.Type', result.Confidence,
   cliChecks.map fun nc => (nc.1, mkCheckResult (nc.2 s))⟩


theorem wf_CheckDockerEnv (s : HostState) : WFFinding (CheckDockerEnv s) := by
  unfold CheckDockerEnv
  split_ifs <;> decide

theorem wf_cgroupScan (ls : List String) : WFFinding (cgroupScan ls) := by
  induction ls with
  | nil => decide
  | cons l rest ih =>
    unfold cgroupScan
    split_ifs <;> first | decide | exact ih

theorem wf_CheckCgroup (s : HostState) : WFFinding (CheckCgroup s) := by
  unfold CheckCgroup
  cases hc : s.cgroup with
  | error e => exact show WFFinding notFound by decide
  | ok lines => exact wf_cgroupScan lines

theorem wf_CheckKubernetes (s : HostState) : WFFinding (CheckKubernetes s) := by
  unfold CheckKubernetes
  split_ifs <;> decide

theorem wf_CheckPodman (s : HostState) : WFFinding (CheckPodman s) := by
  unfold CheckPodman
  split_ifs <;> decide

theorem wf_CheckColima (s : HostState) : WFFinding (CheckColima s) := by
  unfold CheckColima
  split_ifs <;> decide

theorem wf_CheckOrbStack (s : HostState) : WFFinding (CheckOrbStack s) := by
  unfold CheckOrbStack
  split_ifs <;> decide

theorem wf_CheckRancherDesktop (s : HostState) : WFFinding (CheckRancherDesktop s) := by
  unfold CheckRancherDesktop
  split_ifs <;> decide

theorem wf_probe : ∀ f ∈ probeFuns, ∀ s : HostState, WFFinding (f s) := by
  intro f hf s
  simp only [probeFuns, List.mem_cons, List.not_mem_nil, or_false] at hf
  rcases hf with rfl | rfl | rfl | rfl | rfl | rfl | rfl
  · exact wf_CheckDockerEnv s
  · exact wf_CheckCgroup s
  · exact wf_CheckKubernetes s
  · exact wf_CheckPodman s
  · exact wf_CheckColima s
  · exact wf_CheckOrbStack s
  · exact wf_CheckRancherDesktop s

theorem foldl_max_init_le (l : List ℚ) (m : ℚ) : m ≤ l.foldl max m := by
  induction l generalizing m with
  | nil => exact le_refl m
  | cons c t ih => exact le_trans (le_max_left m c) (ih (max m c))

theorem le_foldl_max_of_mem {l : List ℚ} {x : ℚ} (hx : x ∈ l) (m : ℚ) :
    x ≤ l.foldl max m := by
  induction l generalizing m with
  | nil => cases hx
  | cons c t ih =>
    rcases List.mem_cons.mp hx with rfl | hx'
    · exact le_trans (le_max_right m x) (foldl_max_init_le t (max m x))
    · exact ih hx' (max m c)

theorem foldl_max_eq_init_or_mem (l : List ℚ) (m : ℚ) :
    l.foldl max m = m ∨ l.foldl max m ∈ l := by
  induction l generalizing m with
  | nil => exact .inl rfl
  | cons c t ih =>
    rcases ih (max m c) with h | h
    · rcases max_choice m c with hm | hm
      · exact .inl (by rw [List.foldl_cons, h, hm])
      · refine .inr ?_
        rw [List.foldl_cons, h, hm]
        exact List.mem_cons_self c t
    · exact .inr (List.mem_cons_of_mem c h)

theorem foldl_max_le {l : List ℚ} {m b : ℚ} (hm : m ≤ b) (h : ∀ x ∈ l, x ≤ b) :
    l.foldl max m ≤ b := by
  induction l generalizing m with
  | nil => exact hm
  | cons c t ih =>
    exact ih (max_le hm (h c (List.mem_cons_self c t)))
      fun x hx => h x (List.mem_cons_of_mem c hx)

theorem foldl_detectStep_fst (l : List Finding) :
    ∀ acc : Bool × ℚ × ContainerType,
      (l.foldl detectStep acc).1 = (acc.1 || l.any fun r => r.found) := by
  induction l with
  | nil => intro acc; simp
  | cons r t ih =>
    intro acc
    rw [List.foldl_cons, List.any_cons, ih (detectStep acc r)]
    have hstep : (detectStep acc r).1 = (acc.1 || r.found) := by
      unfold detectStep
      cases hr : r.found with
      | true => simp [hr]
      | false => simp [hr]
    rw [hstep, Bool.or_assoc]

theorem foldl_detectStep_snd (l : List Finding) :
    ∀ acc : Bool × ℚ × ContainerType,
      (l.foldl detectStep acc).2 =
        (l.filter fun r => r.found).foldl step2 acc.2 := by
  induction l with
  | nil => intro acc; rfl
  | cons r t ih =>
    intro acc
    rw [List.foldl_cons, ih (detectStep acc r)]
    cases hr : r.found with
    | true =>
      have h1 : List.filter (fun r => r.found) (r :: t)
          = r :: List.filter (fun r => r.found) t := by
        rw [List.filter_cons, if_pos (by simp [hr])]
      have h2 : (detectStep acc r).2 = step2 acc.2 r := by
        unfold detectStep step2
        rw [if_pos hr]
      rw [h1, h2, List.foldl_cons]
    | false =>
      have h1 : List.filter (fun r => r.found) (r :: t)
          = List.filter (fun r => r.found) t := by
        rw [List.filter_cons, if_neg (by simp [hr])]
      have h2 : (detectStep acc r).2 = acc.2 := by
        unfold detectStep
        rw [if_neg (by simp [hr])]
      rw [h1, h2]


theorem find?_filter_eq (l : List Finding) (p q : Finding → Bool) :
    (l.filter p).find? q = l.find? fun a => p a && q a := by
  induction l with
  | nil => rfl
  | cons a t ih =>
    by_cases hp : p a = true
    · rw [List.filter_cons, if_pos (by simp [hp])]
      cases hq : q a with
      | true =>
        rw [List.find?_cons_of_pos _ (by simp [hq]),
          List.find?_cons_of_pos _ (by simp [hp, hq])]
      | false =>
        rw [List.find?_cons_of_neg _ (by simp [hq]),
          List.find?_cons_of_neg _ (by simp [hq]), ih]
    · rw [List.filter_cons, if_neg (by simp [hp]),
        List.find?_cons_of_neg _ (by simp [hp]), ih]

theorem foldl_step2_spec (l : List Finding) :
    ∀ (m : ℚ) (t : ContainerType),
      l.foldl step2 (m, t) =
        ((l.map fun r => r.confidence).foldl max m,
         if (l.map fun r => r.confidence).foldl max m = m then t
         else kindOf
           (l.find? fun r =>
             decide (r.confidence = (l.map fun r => r.confidence).foldl max m)) t) := by
  induction l with
  | nil => intro m t; simp
  | cons r tl ih =>
    intro m t
    have hmap : ((r :: tl).map fun r => r.confidence).foldl max m
        = (tl.map fun r => r.confidence).foldl max (max m r.confidence) := by
      rw [List.map_cons, List.foldl_cons]
    by_cases hc : m < r.confidence
    · have hstep : step2 (m, t) r = (r.confidence, r.kind) := by
        unfold step2; rw [if_pos hc]
      have hmax : max m r.confidence = r.confidence := max_eq_right hc.le
      rw [List.foldl_cons, hstep, ih r.confidence r.kind, hmap, hmax]
      set M := (tl.map fun r => r.confidence).foldl max r.confidence with hM
      have hMne : M ≠ m := by
        have hle : r.confidence ≤ M := foldl_max_init_le _ _
        exact fun hEq => absurd hc (by rw [← hEq]; exact not_lt.mpr hle)
      rw [if_neg hMne]
      by_cases hr : r.confidence = M
      · rw [if_pos hr.symm, List.find?_cons_of_pos _ (by simp [hr])]
        rfl
      · rw [if_neg fun h => hr h.symm, List.find?_cons_of_neg _ (by simp [hr])]
        rcases foldl_max_eq_init_or_mem (tl.map fun r => r.confidence) r.confidence
          with h | h
        · exact absurd h.symm hr
        · obtain ⟨x, hx, hxc⟩ := List.mem_map.mp h
          have hsome : (tl.find? fun r => decide (r.confidence = M)).isSome := by
            rw [List.find?_isSome]
            exact ⟨x, hx, by simp [hxc]⟩
          obtain ⟨y, hy⟩ := Option.isSome_iff_exists.mp hsome
          rw [hy]
          rfl
    · have hstep : step2 (m, t) r = (m, t) := by
        unfold step2; rw [if_neg hc]
      have hmax : max m r.confidence = m := max_eq_left (not_lt.mp hc)
      rw [List.foldl_cons, hstep, ih m t, hmap, hmax]
      set M := (tl.map fun r => r.confidence).foldl max m with hM
      by_cases hMm : M = m
      · rw [if_pos hMm, if_pos hMm]
      · rw [if_neg hMm, if_neg hMm]
        have h1 : m ≤ M := foldl_max_init_le _ _
        have h2 : r.confidence ≤ m := not_lt.mp hc
        have hrc : ¬(r.confidence = M) := by
          intro hEq
          exact hMm (le_antisymm (hEq ▸ h2 : M ≤ m) h1)
        rw [List.find?_cons_of_neg _ (by simp [hrc])]


theorem wf_findings (s : HostState) : ∀ r ∈ findings s, WFFinding r := by
  intro r hr
  obtain ⟨f, hf, rfl⟩ := List.mem_map.mp hr
  exact wf_probe f hf s

theorem pos_conf_of_found {r : Finding} (h : WFFinding r) (hf : r.found = true) :
    0 < r.confidence := by
  rcases (h.1 hf).2 with hc | hc | hc | hc <;> rw [hc] <;> decide

theorem Detect_eq_detectSpec (s : HostState) : Detect s = detectSpec s := by
  have hwf := wf_findings s
  have hfold : probeFuns.foldl (fun acc check => detectStep acc (check s))
      (false, (0:ℚ), Unknown) = (findings s).foldl detectStep (false, 0, Unknown) := by
    rw [findings, List.foldl_map]
  simp only [Detect, detectSpec]
  rw [hfold, foldl_detectStep_fst, foldl_detectStep_snd]
  have hsel := foldl_step2_spec ((findings s).filter fun r => r.found) 0 Unknown
  rw [hsel]
  set l := findings s with hl
  set pos := l.filter (fun r => r.found) with hpos
  set M := (pos.map fun r => r.confidence).foldl max 0 with hMdef
  by_cases hany : l.any (fun r => r.found) = true
  · obtain ⟨r₀, hr₀mem, hr₀⟩ := List.any_eq_true.mp hany
    have hr₀pos : r₀ ∈ pos := List.mem_filter.mpr ⟨hr₀mem, hr₀⟩
    have h0 : 0 < r₀.confidence := pos_conf_of_found (hwf r₀ hr₀mem) hr₀
    have hconfmem : r₀.confidence ∈ pos.map (fun r => r.confidence) :=
      List.mem_map_of_mem _ hr₀pos
    have hMpos : 0 < M := lt_of_lt_of_le h0 (le_foldl_max_of_mem hconfmem 0)
    have hMne : M ≠ 0 := ne_of_gt hMpos
    have hmem : M ∈ pos.map (fun r => r.confidence) := by
      rcases foldl_max_eq_init_or_mem (pos.map fun r => r.confidence) 0 with h | h
      · exact absurd h hMne
      · exact h
    obtain ⟨x, hxpos, hxconf⟩ := List.mem_map.mp hmem
    have hsome : (pos.find? fun r => decide (r.confidence = M)).isSome := by
      rw [List.find?_isSome]
      exact ⟨x, hxpos, by simp [hxconf]⟩
    obtain ⟨y, hy⟩ := Option.isSome_iff_exists.mp hsome
    have hfindl : l.find? (fun r => r.found && decide (r.confidence = M)) = some y := by
      rw [← find?_filter_eq l (fun r => r.found) (fun r => decide (r.confidence = M)),
        ← hpos, hy]
    rw [hfindl, hany, if_neg hMne, hy]
    rfl
  · have hany' : l.any (fun r => r.found) = false := by
      cases h : l.any (fun r => r.found) with
      | true => exact absurd h hany
      | false => rfl
    have hallnot : ∀ x ∈ l, ¬(x.found = true) := List.any_eq_false.mp hany'
    have hposnil : pos = [] := List.filter_eq_nil_iff.mpr (by
      intro a ha
      simpa using hallnot a ha)
    have hfindnone : l.find? (fun r => r.found && decide (r.confidence = M)) = none := by
      rw [List.find?_eq_none]
      intro x hx
      simp [hallnot x hx]
    rw [hfindnone, hany']
    have hM0 : M = 0 := by rw [hMdef, hposnil]; rfl
    rw [hM0, if_pos rfl]
    rfl


theorem hexChar_utf8Size {c : Char}
    (h : ((decide ('0' ≤ c) && decide (c ≤ '9')) ||
          (decide ('a' ≤ c) && decide (c ≤ 'f')) ||
          (decide ('A' ≤ c) && decide (c ≤ 'F'))) = true) :
    c.utf8Size = 1 := by
  simp only [Bool.or_eq_true, Bool.and_eq_true, decide_eq_true_eq] at h
  have hv : c.val.toNat ≤ 127 := by
    have h9 : ('9' : Char).val.toNat = 57 := by decide
    have hf : ('f' : Char).val.toNat = 102 := by decide
    have hF : ('F' : Char).val.toNat = 70 := by decide
    rcases h with (⟨_, h⟩ | ⟨_, h⟩) | ⟨_, h⟩ <;>
      · have := Char.le_def.mp h
        rw [UInt32.le_def, BitVec.le_def] at this
        simp only [UInt32.toNat] at *
        omega
  have hcond : c.val ≤ UInt32.ofNatCore 0x7F (by decide) := by
    rw [UInt32.le_def, BitVec.le_def]
    have : (UInt32.ofNatCore 0x7F (by decide)).toBitVec.toNat = 127 := by decide
    rw [this]
    exact hv
  simp only [Char.utf8Size, hcond, if_pos]

theorem goLen_of_hex {s : String} (h : isHexString s = true) :
    goLen s = s.length := by
  obtain ⟨l⟩ := s
  simp only [isHexString, List.all_eq_true] at h
  simp only [goLen, String.utf8ByteSize_mk, String.length]
  induction l with
  | nil => rfl
  | cons c cs ih =>
    have hc := hexChar_utf8Size (h c (by simp))
    have ih' := ih fun x hx => h x (by simp [hx])
    simp only [String.utf8Len_cons, hc, List.length_cons, ih']

theorem conf_nonneg_of_wf {r : Finding} (h : WFFinding r) : 0 ≤ r.confidence := by
  cases hf : r.found with
  | true => exact le_of_lt (pos_conf_of_found h hf)
  | false => rw [(h.2 hf).2]

theorem conf_le_one_of_wf {r : Finding} (h : WFFinding r) : r.confidence ≤ 1 := by
  cases hf : r.found with
  | true => rcases (h.1 hf).2 with hc | hc | hc | hc <;> rw [hc] <;> decide
  | false => rw [(h.2 hf).2]; decide

theorem kind_ne_unknown_of_found {r : Finding} (h : WFFinding r)
    (hf : r.found = true) : r.kind ≠ Unknown := by
  rcases (h.1 hf).1 with hk | hk | hk | hk | hk | hk | hk <;> rw [hk] <;> decide

theorem detectSpec_inv (s : HostState) :
    0 ≤ (detectSpec s).Confidence ∧ (detectSpec s).Confidence ≤ 1 ∧
    ((detectSpec s).InContainer = false →
      (detectSpec s).Confidence = 0 ∧ (detectSpec s).Type' = Unknown) ∧
    ((detectSpec s).InContainer = true →
      (detectSpec s).Type' ≠ Unknown ∧ 0 < (detectSpec s).Confidence) := by
  have hwf := wf_findings s
  simp only [detectSpec]
  set l := findings s with hl
  set pos := l.filter (fun r => r.found) with hpos
  set M := (pos.map fun r => r.confidence).foldl max 0 with hMdef
  have hM0 : 0 ≤ M := foldl_max_init_le _ _
  have hM1 : M ≤ 1 := by
    refine foldl_max_le (by norm_num) ?_
    intro x hx
    obtain ⟨r, hrpos, rfl⟩ := List.mem_map.mp hx
    exact conf_le_one_of_wf (hwf r (List.mem_of_mem_filter hrpos))
  cases hfind : l.find? (fun r => r.found && decide (r.confidence = M)) with
  | none => simp
  | some y =>
    have hy := List.find?_some hfind
    simp only [Bool.and_eq_true, decide_eq_true_eq] at hy
    have hymem : y ∈ l := List.mem_of_find?_eq_some hfind
    have hwfy := hwf y hymem
    show 0 ≤ M ∧ M ≤ 1 ∧ (true = false → M = 0 ∧ y.kind = Unknown) ∧
      (true = true → y.kind ≠ Unknown ∧ 0 < M)
    refine ⟨hM0, hM1, ?_, ?_⟩
    · exact fun h => nomatch h
    · exact fun _ => ⟨kind_ne_unknown_of_found hwfy hy.1,
        hy.2 ▸ pos_conf_of_found hwfy hy.1⟩


theorem lineMatches_false_parts {l : String} (hm : lineMatches l = false) :
    goContains l "docker" = false ∧ goContains l "kubepods" = false ∧
    goContains l "lxc" = false ∧ goContains l "podman" = false ∧
    goContains l "colima" = false := by
  simpa [lineMatches, recognizedSubs] using hm

theorem cgroupScan_cons_match {l : String} {rest : List String}
    (hm : lineMatches l = true) : cgroupScan (l :: rest) = lineVerdict l := by
  rw [cgroupScan.eq_def, lineVerdict]
  simp only [recognizedSubs]
  by_cases h1 : goContains l "docker" = true
  · rw [if_pos h1, List.find?_cons_of_pos _ (by simpa using h1)]
  · rw [if_neg h1, List.find?_cons_of_neg _ (by simpa using h1)]
    by_cases h2 : goContains l "kubepods" = true
    · rw [if_pos h2, List.find?_cons_of_pos _ (by simpa using h2)]
    · rw [if_neg h2, List.find?_cons_of_neg _ (by simpa using h2)]
      by_cases h3 : goContains l "lxc" = true
      · rw [if_pos h3, List.find?_cons_of_pos _ (by simpa using h3)]
      · rw [if_neg h3, List.find?_cons_of_neg _ (by simpa using h3)]
        by_cases h4 : goContains l "podman" = true
        · rw [if_pos h4, List.find?_cons_of_pos _ (by simpa using h4)]
        · rw [if_neg h4, List.find?_cons_of_neg _ (by simpa using h4)]
          by_cases h5 : goContains l "colima" = true
          · rw [if_pos h5, List.find?_cons_of_pos _ (by simpa using h5)]
          · exfalso
            have hfalse : lineMatches l = false := by
              simp [lineMatches, recognizedSubs,
                eq_false_of_ne_true h1, eq_false_of_ne_true h2,
                eq_false_of_ne_true h3, eq_false_of_ne_true h4,
                eq_false_of_ne_true h5]
            rw [hfalse] at hm
            cases hm

theorem cgroupScan_cons_nomatch {l : String} {rest : List String}
    (hm : lineMatches l = false) : cgroupScan (l :: rest) = cgroupScan rest := by
  obtain ⟨h1, h2, h3, h4, h5⟩ := lineMatches_false_parts hm
  rw [cgroupScan.eq_def]
  simp only [h1, h2, h3, h4, h5, Bool.false_eq_true, if_false]

theorem cgroupScan_eq_find (ls : List String) :
    cgroupScan ls =
      match ls.find? lineMatches with
      | some l => lineVerdict l
      | none => notFound := by
  induction ls with
  | nil => rfl
  | cons l rest ih =>
    cases hm : lineMatches l with
    | true =>
      rw [List.find?_cons_of_pos _ hm]
      exact cgroupScan_cons_match hm
    | false =>
      rw [List.find?_cons_of_neg _ (by simp [hm]), cgroupScan_cons_nomatch hm, ih]

theorem CheckCgroup_eq_model (s : HostState) :
    CheckCgroup s = cgroupModel s.cgroup := by
  unfold CheckCgroup cgroupModel
  cases s.cgroup with
  | error e => rfl
  | ok ls => exact cgroupScan_eq_find ls

theorem CheckDockerEnv_eq_model (s : HostState) :
    CheckDockerEnv s = dockerEnvModel s := by
  unfold CheckDockerEnv dockerEnvModel
  by_cases h1 : (s.stat "/.dockerenv").isNone = true
  · rw [if_pos h1, if_pos h1]
  · rw [if_neg h1, if_neg h1]
    cases hh : s.hostname with
    | none => simp
    | some h =>
      simp only []
      have hcond : ((goLen h == 12 && isHexString h) = true) ↔
          (h.length = 12 ∧ isHexString h = true) := by
        constructor
        · intro hc
          rw [Bool.and_eq_true, beq_iff_eq] at hc
          exact ⟨by rw [← goLen_of_hex hc.2]; exact hc.1, hc.2⟩
        · intro hc
          rw [Bool.and_eq_true, beq_iff_eq]
          exact ⟨by rw [goLen_of_hex hc.2]; exact hc.1, hc.2⟩
      exact if_congr hcond rfl rfl


theorem cgroupScan_notFound {ls : List String}
    (h : ∀ l ∈ ls, lineMatches l = false) : cgroupScan ls = notFound := by
  induction ls with
  | nil => rfl
  | cons l rest ih =>
    rw [cgroupScan_cons_nomatch (h l (List.mem_cons_self l rest))]
    exact ih fun l' hl' => h l' (List.mem_cons_of_mem l hl')

theorem Detect_eq_foldl (s : HostState) :
    Detect s = ⟨((findings s).foldl detectStep (false, 0, Unknown)).1,
                ((findings s).foldl detectStep (false, 0, Unknown)).2.2,
                ((findings s).foldl detectStep (false, 0, Unknown)).2.1⟩ := by
  simp only [Detect]
  rw [findings, List.foldl_map]

theorem Detect_podman_only (s : HostState)
    (hcont : s.getenv "container" = "podman")
    (henv : ∀ n, n ≠ "container" → s.getenv n = "")
    (hstat : ∀ p, (s.stat p).isSome = true)
    (hhost : ∀ h, s.hostname = some h →
      (¬(h.length = 12 ∧ isHexString h = true)) ∧ goContains h "colima" = false ∧
      goContains h "orbstack" = false ∧ goContains h "rancher" = false ∧
      goContains h "rd-" = false)
    (hcg : ∀ ls, s.cgroup = .ok ls → ∀ l ∈ ls, lineMatches l = false) :
    Detect s = ⟨true, Podman, mkRat 9 10⟩ := by
  have hstat' : ∀ p, (s.stat p).isNone = false := by
    intro p
    have hp := hstat p
    cases hsp : s.stat p with
    | none => rw [hsp] at hp; exact absurd hp (by decide)
    | some e => rfl
  have hhost12 : (match s.hostname with
      | some h => goLen h == 12 && isHexString h
      | none => false) = false := by
    cases hh : s.hostname with
    | none => rfl
    | some h =>
      simp only []
      by_cases hhex : isHexString h = true
      · cases hb : (goLen h == 12) with
        | false => simp [hb]
        | true =>
          exfalso
          exact (hhost h hh).1
            ⟨by rw [← goLen_of_hex hhex]; exact by simpa using hb, hhex⟩
      · simp [eq_false_of_ne_true hhex]
  have hhostCol : (match s.hostname with
      | some h => goContains h "colima"
      | none => false) = false := by
    cases hh : s.hostname with
    | none => rfl
    | some h => exact (hhost h hh).2.1
  have hhostOrb : (match s.hostname with
      | some h => goContains h "orbstack"
      | none => false) = false := by
    cases hh : s.hostname with
    | none => rfl
    | some h => exact (hhost h hh).2.2.1
  have hhostRd : (match s.hostname with
      | some h => goContains h "rancher" || goContains h "rd-"
      | none => false) = false := by
    cases hh : s.hostname with
    | none => rfl
    | some h =>
      have hr := (hhost h hh).2.2.2
      simp only [hr.1, hr.2, Bool.or_self]
  have h1 : CheckDockerEnv s = notFound := by
    unfold CheckDockerEnv
    rw [if_neg (by simp [hstat']), if_neg (by simp [hhost12])]
  have h2 : CheckCgroup s = notFound := by
    unfold CheckCgroup
    cases hcgs : s.cgroup with
    | error e => rfl
    | ok ls => exact cgroupScan_notFound (hcg ls hcgs)
  have h3 : CheckKubernetes s = notFound := by
    unfold CheckKubernetes
    rw [if_neg (by simp [hstat']),
      if_neg (by simp [henv "KUBERNETES_SERVICE_HOST" (by decide)])]
  have h4 : CheckPodman s = ⟨true, Podman, mkRat 9 10⟩ := by
    unfold CheckPodman
    rw [if_pos hcont]
  have h5 : CheckColima s = notFound := by
    unfold CheckColima
    rw [if_neg (by simp [henv "COLIMA" (by decide)]),
      if_neg (by simp [hstat']), if_neg (by simp [hhostCol])]
  have h6 : CheckOrbStack s = notFound := by
    unfold CheckOrbStack
    rw [if_neg (by simp [henv "ORBSTACK" (by decide)]),
      if_neg (by simp [hstat']), if_neg (by simp [hhostOrb]),
      if_neg (by simp [hstat'])]
  have h7 : CheckRancherDesktop s = notFound := by
    unfold CheckRancherDesktop
    rw [if_neg (by simp [henv "RANCHER_DESKTOP" (by decide)]),
      if_neg (by simp [hstat']), if_neg (by simp [hhostRd]),
      if_neg (by simp [hstat'])]
  have hfind : findings s =
      [notFound, notFound, notFound, ⟨true, Podman, mkRat 9 10⟩,
       notFound, notFound, notFound] := by
    simp only [findings, probeFuns, List.map_cons, List.map_nil,
      h1, h2, h3, h4, h5, h6, h7]
  rw [Detect_eq_foldl, hfind]
  decide


theorem probes_resource_blind (s₁ s₂ : HostState)
    (hstat : ∀ p, (s₁.stat p).isNone = (s₂.stat p).isNone)
    (hhost : s₁.hostname = s₂.hostname)
    (hcg : cgroupSame s₁.cgroup s₂.cgroup)
    (henv : ∀ n, s₁.getenv n = s₂.getenv n) :
    ∀ f ∈ probeFuns, f s₁ = f s₂ := by
  have hde : CheckDockerEnv s₁ = CheckDockerEnv s₂ := by
    simp only [CheckDockerEnv, hstat, hhost]
  have hcgr : CheckCgroup s₁ = CheckCgroup s₂ := by
    unfold CheckCgroup
    cases hc1 : s₁.cgroup with
    | error e =>
      cases hc2 : s₂.cgroup with
      | error e' => rfl
      | ok ls => rw [hc1, hc2] at hcg; exact False.elim hcg
    | ok ls =>
      cases hc2 : s₂.cgroup with
      | error e' => rw [hc1, hc2] at hcg; exact False.elim hcg
      | ok ls' =>
        rw [hc1, hc2] at hcg
        have hls : ls = ls' := hcg
        rw [hls]
  have hk8 : CheckKubernetes s₁ = CheckKubernetes s₂ := by
    simp only [CheckKubernetes, hstat, henv]
  have hpod : CheckPodman s₁ = CheckPodman s₂ := by
    simp only [CheckPodman, henv]
  have hcol : CheckColima s₁ = CheckColima s₂ := by
    simp only [CheckColima, hstat, hhost, henv]
  have horb : CheckOrbStack s₁ = CheckOrbStack s₂ := by
    simp only [CheckOrbStack, hstat, hhost, henv]
  have hrd : CheckRancherDesktop s₁ = CheckRancherDesktop s₂ := by
    simp only [CheckRancherDesktop, hstat, hhost, henv]
  intro f hf
  simp only [probeFuns, List.mem_cons, List.not_mem_nil, or_false] at hf
  rcases hf with rfl | rfl | rfl | rfl | rfl | rfl | rfl
  · exact hde
  · exact hcgr
  · exact hk8
  · exact hpod
  · exact hcol
  · exact horb
  · exact hrd

theorem probes_barren (e : StatError) :
    ∀ f ∈ probeFuns, f (barren e) = notFound := by
  intro f hf
  simp only [probeFuns, List.mem_cons, List.not_mem_nil, or_false] at hf
  rcases hf with rfl | rfl | rfl | rfl | rfl | rfl | rfl <;> rfl

theorem Detect_barren (e : StatError) : Detect (barren e) = ⟨false, Unknown, 0⟩ := rfl


theorem find?_append_not {p : String → Bool} (pre rest : List String)
    (hpre : ∀ x ∈ pre, p x = false) :
    (pre ++ rest).find? p = rest.find? p := by
  induction pre with
  | nil => rfl
  | cons a t ih =>
    rw [List.cons_append,
      List.find?_cons_of_neg _ (by simp [hpre a (List.mem_cons_self a t)])]
    exact ih fun x hx => hpre x (List.mem_cons_of_mem a hx)

/-- Claim C1: `Detect` runs all seven probes unconditionally and equals the
aggregation model: `InContainer` is true iff at least one probe returned
`found = true`; `Confidence` is the maximum confidence among the probes
that fired (`0` when none); `Type'` is the kind of the earliest-registered
probe achieving that maximum, ties on equal confidence resolved
first-registered-wins in the fixed order Docker-environment, cgroup,
Kubernetes, Podman, Colima, OrbStack, RancherDesktop (the order of
`probeFuns`). -/
theorem claim_C1_detect_aggregation (s : HostState) :
    Detect s = detectSpec s ∧
    ((Detect s).InContainer = true ↔ ∃ f ∈ probeFuns, (f s).found = true) := by
  refine ⟨Detect_eq_detectSpec s, ?_⟩
  have h1 : (Detect s).InContainer = ((findings s).any fun r => r.found) := by
    rw [Detect_eq_foldl]
    show ((findings s).foldl detectStep (false, 0, Unknown)).1 = _
    rw [foldl_detectStep_fst]
    simp
  rw [h1, List.any_eq_true]
  constructor
  · rintro ⟨r, hr, hfound⟩
    obtain ⟨f, hf, rfl⟩ := List.mem_map.mp hr
    exact ⟨f, hf, hfound⟩
  · rintro ⟨f, hf, hfound⟩
    exact ⟨f s, List.mem_map_of_mem _ hf, hfound⟩

/-- Claim C2: every `Result` returned by `Detect` is well-formed:
`Confidence` lies in `[0, 1]`; if `InContainer` is false then
`Confidence = 0` and `Type' = Unknown`; if `InContainer` is true then
`Type' ≠ Unknown` and `Confidence > 0`. -/
theorem claim_C2_result_wellformed (s : HostState) :
    0 ≤ (Detect s).Confidence ∧ (Detect s).Confidence ≤ 1 ∧
    ((Detect s).InContainer = false →
      (Detect s).Confidence = 0 ∧ (Detect s).Type' = Unknown) ∧
    ((Detect s).InContainer = true →
      (Detect s).Type' ≠ Unknown ∧ 0 < (Detect s).Confidence) := by
  rw [Detect_eq_detectSpec s]
  exact detectSpec_inv s

/-- Claim C3: `CheckCgroup` reads the cgroup descriptor line by line and
returns at the first line containing a recognized substring, mapping
`docker`, `kubepods`, `lxc`, `podman`, `colima` to Docker, Kubernetes,
LXC, Podman, Colima respectively at confidence 0.8 (see `lineVerdict`
and `recognizedSubs`); if no line matches, or the file cannot be opened,
it returns `(false, Unknown, 0)` — i.e. it equals `cgroupModel`. -/
theorem claim_C3_cgroup_first_match (s : HostState) :
    CheckCgroup s = cgroupModel s.cgroup := CheckCgroup_eq_model s

/-- Claim C4: `CheckDockerEnv` returns `(true, Docker, 0.9)` when the
`/.dockerenv` marker exists; otherwise `(true, Docker, 0.7)` when the
hostname can be read, is exactly 12 characters long, and every character
is a hexadecimal digit; otherwise `(false, Unknown, 0)`; the rules are
checked in that order with short-circuit — i.e. it equals
`dockerEnvModel`. -/
theorem claim_C4_docker_env (s : HostState) :
    CheckDockerEnv s = dockerEnvModel s := CheckDockerEnv_eq_model s

/-- Claim C5: `isHexString s` is true iff every character of `s` is one
of `0-9`, `a-f`, `A-F`; in particular the empty string yields true,
`abc123` and `ABC123` yield true, `xyz123` and `123-456` yield false. -/
theorem claim_C5_isHexString (s : String) :
    (isHexString s = true ↔ ∀ c ∈ s.data,
      ('0' ≤ c ∧ c ≤ '9') ∨ ('a' ≤ c ∧ c ≤ 'f') ∨ ('A' ≤ c ∧ c ≤ 'F')) ∧
    isHexString "" = true ∧ isHexString "abc123" = true ∧
    isHexString "ABC123" = true ∧ isHexString "xyz123" = false ∧
    isHexString "123-456" = false := by
  refine ⟨?_, by decide, by decide, by decide, by decide, by decide⟩
  rw [isHexString, List.all_eq_true]
  constructor
  · intro h c hc
    have := h c hc
    simp only [Bool.or_eq_true, Bool.and_eq_true, decide_eq_true_eq] at this
    tauto
  · intro h c hc
    have := h c hc
    simp only [Bool.or_eq_true, Bool.and_eq_true, decide_eq_true_eq]
    tauto

/-- Claim C10: within a single cgroup line, `CheckCgroup` tests the
recognized substrings in the fixed order docker, kubepods, lxc, podman,
colima; consequently, at the first matching line, any line containing
both `kubepods` and `docker` reports `(true, Docker, 0.8)`, not
Kubernetes. -/
theorem claim_C10_cgroup_line_order (s : HostState) (pre post : List String)
    (l : String)
    (hcg : s.cgroup = .ok (pre ++ l :: post))
    (hpre : ∀ l' ∈ pre, lineMatches l' = false)
    (hdocker : goContains l "docker" = true)
    (_hkube : goContains l "kubepods" = true) :
    CheckCgroup s = ⟨true, Docker, mkRat 8 10⟩ := by
  have hlm : lineMatches l = true := by
    simp [lineMatches, recognizedSubs, hdocker]
  have hfind : (pre ++ l :: post).find? lineMatches = some l := by
    rw [find?_append_not pre _ hpre, List.find?_cons_of_pos _ hlm]
  rw [CheckCgroup_eq_model, hcg]
  simp only [cgroupModel, hfind]
  unfold lineVerdict recognizedSubs
  rw [List.find?_cons_of_pos _ (by simpa using hdocker)]

theorem claim_C10_witness :
    CheckCgroup sCgroupBoth = ⟨true, Docker, mkRat 8 10⟩ :=
  claim_C10_cgroup_line_order sCgroupBoth [] []
    "12:cpuset:/kubepods/pod1/docker-abc123" rfl
    (fun _ hl' => nomatch hl') (by decide) (by decide)


/-- Claim C6: for every host state in which the environment variable
named exactly `container` has value `podman` and no other evidence of any
kind is present (no files, no matching cgroup lines, no other environment
variables, no matching hostname), `Detect` returns
`(true, Podman, 0.9)`. -/
theorem claim_C6_podman_env_only (s : HostState)
    (hcont : s.getenv "container" = "podman")
    (henv : ∀ n, n ≠ "container" → s.getenv n = "")
    (hstat : ∀ p, (s.stat p).isSome = true)
    (hhost : ∀ h, s.hostname = some h →
      (¬(h.length = 12 ∧ isHexString h = true)) ∧ goContains h "colima" = false ∧
      goContains h "orbstack" = false ∧ goContains h "rancher" = false ∧
      goContains h "rd-" = false)
    (hcg : ∀ ls, s.cgroup = .ok ls → ∀ l ∈ ls, lineMatches l = false) :
    Detect s = ⟨true, Podman, mkRat 9 10⟩ :=
  Detect_podman_only s hcont henv hstat hhost hcg

theorem claim_C6_witness : Detect sPodmanOnly = ⟨true, Podman, mkRat 9 10⟩ :=
  claim_C6_podman_env_only sPodmanOnly (by decide) (fun n hn => if_neg hn)
    (fun _ => rfl) (fun _ hh => nomatch hh) (fun _ hls => nomatch hls)

/-- Claim C7: no probe or aggregator call fails outwardly.  Probes are
total functions of the host state; two host states whose resources fail
in different ways (e.g. absent vs. permission-denied) are
indistinguishable to every probe; and on a host state whose every
resource is unreadable each probe returns `(false, Unknown, 0)` and
`Detect` returns the negative result rather than an error. -/
theorem claim_C7_no_outward_failure (s₁ s₂ : HostState)
    (hstat : ∀ p, (s₁.stat p).isNone = (s₂.stat p).isNone)
    (hhost : s₁.hostname = s₂.hostname)
    (hcg : cgroupSame s₁.cgroup s₂.cgroup)
    (henv : ∀ n, s₁.getenv n = s₂.getenv n) :
    (∀ f ∈ probeFuns, f s₁ = f s₂) ∧
    (∀ e : StatError, ∀ f ∈ probeFuns, f (barren e) = notFound) ∧
    (∀ e : StatError, Detect (barren e) = ⟨false, Unknown, 0⟩) :=
  ⟨probes_resource_blind s₁ s₂ hstat hhost hcg henv,
   fun e => probes_barren e, fun e => Detect_barren e⟩

theorem claim_C7_witness :
    CheckDockerEnv (barren .notExist) = CheckDockerEnv (barren .permission) ∧
    Detect (barren .other) = ⟨false, Unknown, 0⟩ :=
  ⟨(claim_C7_no_outward_failure (barren .notExist) (barren .permission)
      (fun _ => rfl) rfl trivial (fun _ => rfl)).1 CheckDockerEnv (.head _),
   (claim_C7_no_outward_failure (barren .notExist) (barren .permission)
      (fun _ => rfl) rfl trivial (fun _ => rfl)).2.2 .other⟩

/-- Claim C8 counterexample: on a host where only the `COLIMA`
environment variable is set, `CheckColima` fires, yet the CLI's
per-probe detail map contains only the four entries `docker_env`,
`cgroup`, `kubernetes`, `podman` and no detail reporting Colima — so the
CLI does not invoke each of the seven named probes. -/
theorem claim_C8_counterexample :
    CheckColima sColimaEnv = ⟨true, Colima, mkRat 9 10⟩ ∧
    (getDetailedResult sColimaEnv (Detect sColimaEnv)).details.map Prod.fst
      = ["docker_env", "cgroup", "kubernetes", "podman"] ∧
    ((getDetailedResult sColimaEnv (Detect sColimaEnv)).details.all
      fun nc => nc.2.type != Colima) = true := by decide

/-- Claim C8 (amended): when invoked with `-v` or `-json`, the CLI
builds its per-probe detail map by individually invoking only the four
probe functions of its `checks` map — Docker-environment (`docker_env`),
cgroup, Kubernetes, Podman — recording for each a detail with fields
found, type and confidence; Colima, OrbStack and Rancher Desktop are not
queried. -/
theorem claim_C8_amended (s : HostState) (result : Result) :
    getDetailedResult s result =
      ⟨result.InContainer, result.Type', result.Confidence,
       [("docker_env", mkCheckResult (CheckDockerEnv s)),
        ("cgroup", mkCheckResult (CheckCgroup s)),
        ("kubernetes", mkCheckResult (CheckKubernetes s)),
        ("podman", mkCheckResult (CheckPodman s))]⟩ := rfl

/-- Claim C9: every probe returns a well-formed finding: when
`found = true` the kind is one of the seven concrete container types
(never Unknown) and the confidence is exactly one of 0.6, 0.7, 0.8, 0.9;
when `found = false` the kind is `Unknown` and the confidence is `0`;
hence every probe confidence lies in `[0, 1]`. -/
theorem claim_C9_probe_wellformed :
    ∀ f ∈ probeFuns, ∀ s : HostState,
      ((f s).found = true →
        ((f s).kind = Docker ∨ (f s).kind = Kubernetes ∨ (f s).kind = Podman ∨
         (f s).kind = LXC ∨ (f s).kind = Colima ∨ (f s).kind = OrbStack ∨
         (f s).kind = RancherDesktop) ∧
        ((f s).confidence = mkRat 6 10 ∨ (f s).confidence = mkRat 7 10 ∨
         (f s).confidence = mkRat 8 10 ∨ (f s).confidence = mkRat 9 10)) ∧
      ((f s).found = false → (f s).kind = Unknown ∧ (f s).confidence = 0) ∧
      (0 ≤ (f s).confidence ∧ (f s).confidence ≤ 1) := by
  intro f hf s
  have h := wf_probe f hf s
  refine ⟨h.1, h.2, ?_, ?_⟩
  · exact conf_nonneg_of_wf h
  · exact conf_le_one_of_wf h

theorem claim_C9_witness :
    ((CheckPodman sPodmanOnly).found = true →
      ((CheckPodman sPodmanOnly).kind = Docker ∨
       (CheckPodman sPodmanOnly).kind = Kubernetes ∨
       (CheckPodman sPodmanOnly).kind = Podman ∨
       (CheckPodman sPodmanOnly).kind = LXC ∨
       (CheckPodman sPodmanOnly).kind = Colima ∨
       (CheckPodman sPodmanOnly).kind = OrbStack ∨
       (CheckPodman sPodmanOnly).kind = RancherDesktop) ∧
      ((CheckPodman sPodmanOnly).confidence = mkRat 6 10 ∨
       (CheckPodman sPodmanOnly).confidence = mkRat 7 10 ∨
       (CheckPodman sPodmanOnly).confidence = mkRat 8 10 ∨
       (CheckPodman sPodmanOnly).confidence = mkRat 9 10)) ∧
    ((CheckPodman sPodmanOnly).found = false →
      (CheckPodman sPodmanOnly).kind = Unknown ∧
      (CheckPodman sPodmanOnly).confidence = 0) ∧
    (0 ≤ (CheckPodman sPodmanOnly).confidence ∧
     (CheckPodman sPodmanOnly).confidence ≤ 1) :=
  claim_C9_probe_wellformed CheckPodman
    (.tail _ (.tail _ (.tail _ (.head _)))) sPodmanOnly

end InContainer
